import Mathlib

/-!
Shallow embedding of the Historical State Reconstruction Engine of the
bb-arena repository, centred on the Capacity Bound Reconciliation code in
`src/frontend/src/components/ArenaDetailView.jsx`, together with the
spec-described pricing-period Game Assigner (whose backend implementation
is not part of the frontend sources).

Dates/timestamps are modelled as `Nat` (JS `Date` values compare
numerically).  JS `null`/`undefined` values are modelled as `Option`.
-/

/-- The four seating sections of an arena. -/
inductive Sect
  | bleachers
  | lower_tier
  | courtside
  | luxury_boxes
deriving DecidableEq, Repr

/-- An arena capacity snapshot row (`arenaHistory` entries):
`created_at` timestamp, the four per-section capacity fields and the
`expansion_in_progress` flag. -/
structure Snapshot where
  id : Nat
  created_at : Nat
  bleachers_capacity : Nat
  lower_tier_capacity : Nat
  courtside_capacity : Nat
  luxury_boxes_capacity : Nat
  expansion_in_progress : Bool
deriving DecidableEq, Repr

/-- Per-section capacity field access of a snapshot. -/
def Snapshot.capacity (s : Snapshot) : Sect → Nat
  | .bleachers => s.bleachers_capacity
  | .lower_tier => s.lower_tier_capacity
  | .courtside => s.courtside_capacity
  | .luxury_boxes => s.luxury_boxes_capacity

/-- Embeds `areSnapshotsIdentical` (ArenaDetailView.jsx lines 249-257):
two snapshots are identical when the four capacity fields and the
expansion flag coincide. -/
def areSnapshotsIdentical (s1 s2 : Snapshot) : Bool :=
  s1.bleachers_capacity == s2.bleachers_capacity &&
  s1.lower_tier_capacity == s2.lower_tier_capacity &&
  s1.courtside_capacity == s2.courtside_capacity &&
  s1.luxury_boxes_capacity == s2.luxury_boxes_capacity &&
  s1.expansion_in_progress == s2.expansion_in_progress

/-- A group of identical consecutive snapshots, as built by
`groupSnapshots` (ArenaDetailView.jsx lines 260-296). -/
structure SnapshotGroup where
  snapshots : List Snapshot
  representative : Snapshot
  startDate : Nat
  endDate : Nat
deriving DecidableEq, Repr

/-- Snapshot list sorted by `created_at` descending, embedding the JS
stable sort `[...snapshots].sort((a, b) => new Date(b.created_at) - new Date(a.created_at))`
(insertion sort is a stable sorting algorithm, as ECMAScript requires). -/
def sortDesc (l : List Snapshot) : List Snapshot :=
  List.insertionSort (fun a b => b.created_at ≤ a.created_at) l

/-- Snapshot list sorted by `created_at` ascending, embedding the JS
stable sort `[...arenaHistory].sort((a, b) => new Date(a.created_at) - new Date(b.created_at))`. -/
def sortAsc (l : List Snapshot) : List Snapshot :=
  List.insertionSort (fun a b => a.created_at ≤ b.created_at) l

/-- Loop body of `groupSnapshots` (lines 275-292): fold the remaining
(descending-sorted) snapshots into the current group or start a new one. -/
def groupLoop : List Snapshot → SnapshotGroup → List SnapshotGroup → List SnapshotGroup
  | [], cur, acc => acc ++ [cur]
  | s :: rest, cur, acc =>
    if areSnapshotsIdentical s cur.representative then
      groupLoop rest
        { cur with snapshots := cur.snapshots ++ [s], endDate := s.created_at } acc
    else
      groupLoop rest ⟨[s], s, s.created_at, s.created_at⟩ (acc ++ [cur])

/-- Embeds `groupSnapshots` (lines 260-296): sort newest-first and group
runs of identical snapshots. -/
def groupSnapshots (snapshots : List Snapshot) : List SnapshotGroup :=
  match sortDesc snapshots with
  | [] => []
  | first :: rest => groupLoop rest ⟨[first], first, first.created_at, first.created_at⟩ []

/-- Containment pass of `findSnapshotForGame` (lines 305-313): first group
whose `[endDate, startDate]` validity interval contains the game date. -/
def findContaining (gd : Nat) : List SnapshotGroup → Option Snapshot
  | [] => none
  | g :: rest =>
    if g.endDate ≤ gd ∧ gd ≤ g.startDate then some g.representative
    else findContaining gd rest

/-- Fallback pass of `findSnapshotForGame` (lines 316-328): among groups
whose `endDate` is at or before the game date, keep the one whose end date
is closest to the game date (strictly smaller difference wins). -/
def closestBefore (gd : Nat) : List SnapshotGroup → Option SnapshotGroup → Option SnapshotGroup
  | [], best => best
  | g :: rest, best =>
    if g.endDate ≤ gd then
      match best with
      | none => closestBefore gd rest (some g)
      | some b =>
        if gd - g.endDate < gd - b.endDate then closestBefore gd rest (some g)
        else closestBefore gd rest (some b)
    else closestBefore gd rest best

/-- Embeds `findSnapshotForGame` (lines 299-331): containing group first,
then closest earlier group, finally the newest group. -/
def findSnapshotForGame (gameDate : Option Nat) (groups : List SnapshotGroup) : Option Snapshot :=
  match gameDate with
  | none => none
  | some gd =>
    if groups.isEmpty then none
    else
      match findContaining gd groups with
      | some rep => some rep
      | none =>
        match closestBefore gd groups none with
        | some g => some g.representative
        | none => groups.head?.map (fun g => g.representative)

/-- Loop of `getKnownCapacities` (lines 446-455): walk the ascending-sorted
snapshots, keep the last one dated at or before the game date, and stop at
the first one dated strictly after it. -/
def bracketLoop (gd : Nat) : List Snapshot → Option Snapshot → Option Snapshot × Option Snapshot
  | [], before => (before, none)
  | s :: rest, before =>
    if s.created_at ≤ gd then bracketLoop gd rest (some s)
    else (before, some s)

/-- Embeds `getKnownCapacities` (lines 416-478): with fewer than two
snapshots or no selected game date every section is unknown; otherwise a
section capacity is known exactly when the bracketing snapshots both exist
and agree on it. -/
def getKnownCapacities (arenaHistory : List Snapshot) (gameDate : Option Nat) :
    Sect → Option Nat :=
  if arenaHistory.length < 2 then fun _ => none
  else
    match gameDate with
    | none => fun _ => none
    | some gd =>
      match bracketLoop gd (sortAsc arenaHistory) none with
      | (some b, some a) =>
        fun sec => if b.capacity sec = a.capacity sec then some (b.capacity sec) else none
      | _ => fun _ => none

/-- Embeds `checkAttendanceEqualsCapacity` (lines 493-505): a capacity
already known stays known; attendance equal to the selected snapshot's
capacity makes it known; a historical prefix maximum that is truthy,
exceeds the attendance and equals the snapshot capacity makes it known. -/
def checkAttendanceEqualsCapacity (attendanceValue : Option Nat) (snapshotCapacity : Nat)
    (knownCapacity : Option Nat) (prefixMax : Option Nat) : Option Nat :=
  match knownCapacity with
  | some k => some k
  | none =>
    if attendanceValue = some snapshotCapacity then some snapshotCapacity
    else
      match prefixMax, attendanceValue with
      | some p, some a =>
        if p ≠ 0 ∧ a < p ∧ p = snapshotCapacity then some snapshotCapacity else none
      | _, _ => none

/-- Embeds `getEffectiveCapacities` (lines 481-535): refine the known
capacities with the selected game's per-section attendance, the selected
snapshot and the per-section prefix maximum attendance. -/
def getEffectiveCapacities (arenaHistory : List Snapshot) (gameDate : Option Nat)
    (attendance : Option (Sect → Option Nat)) (selectedSnapshot : Option Snapshot)
    (prefixMaxAttendance : Option (Sect → Option Nat)) : Sect → Option Nat :=
  let known := getKnownCapacities arenaHistory gameDate
  match attendance, selectedSnapshot with
  | some att, some snap =>
    let pm : Sect → Option Nat :=
      match prefixMaxAttendance with
      | some f => f
      | none => fun _ => none
    fun sec => checkAttendanceEqualsCapacity (att sec) (snap.capacity sec) (known sec) (pm sec)
  | _, _ => known

/-- A selected game: calendar date and per-section attendance, either of
which may be absent. -/
structure Game where
  date : Option Nat
  attendance : Option (Sect → Option Nat)

/-- The snapshot the component auto-selects for a game (the `useEffect` at
lines 348-355 applied to `findSnapshotForGame` over the grouped history). -/
def autoSelectedSnapshot (arenaHistory : List Snapshot) (g : Game) : Option Snapshot :=
  findSnapshotForGame g.date (groupSnapshots arenaHistory)

/-- The full capacity reconciliation pipeline for a selected game: group
the history, auto-select the snapshot for the game date, and compute the
effective capacities. -/
def reconcile (arenaHistory : List Snapshot) (g : Game)
    (prefixMaxAttendance : Option (Sect → Option Nat)) : Sect → Option Nat :=
  getEffectiveCapacities arenaHistory g.date g.attendance
    (autoSelectedSnapshot arenaHistory g) prefixMaxAttendance

/-- Which evidence produced the lower bound line of a capacity tooltip
(lines 550-557). -/
inductive BoundSource
  | both
  | attendanceOnly
  | prevGamesOnly
deriving DecidableEq, Repr

/-- Structural content of the tooltip built by `getCapacityTooltip`
(lines 538-563): the upper-bound line always carries the snapshot
capacity; the lower-bound line is present only when the maximum of the
attendance-derived bounds is positive. -/
structure CapacityTooltip where
  upperBound : Option Nat
  lowerBound : Option (Nat × BoundSource)
deriving DecidableEq, Repr

/-- Embeds `getCapacityTooltip` (lines 538-563), keeping the numeric
content of the generated text. -/
def getCapacityTooltip (attendance : Option Nat) (snapshotCapacity : Option Nat)
    (prefixMax : Option Nat) : CapacityTooltip :=
  let attendanceBound := attendance.getD 0
  let prefixMaxBound := prefixMax.getD 0
  let maxLowerBound := max attendanceBound prefixMaxBound
  { upperBound := snapshotCapacity
    lowerBound :=
      if 0 < maxLowerBound then
        some (maxLowerBound,
          if attendanceBound = maxLowerBound ∧ prefixMaxBound = maxLowerBound then .both
          else if attendanceBound = maxLowerBound then .attendanceOnly
          else .prevGamesOnly)
      else none }

/-- Shape of the per-section capacity figure rendered next to the
attendance (lines 938-950): either a known point value, or an
upper-bound estimate annotated with the tooltip. -/
inductive CapacityDisplay
  | known (v : Nat)
  | estimate (upper : Option Nat) (tooltip : CapacityTooltip)
deriving DecidableEq, Repr

/-- Embeds the per-section capacity rendering (lines 938-950): a truthy
effective capacity is shown as a known value, otherwise the selected
snapshot capacity is shown as a `≤` estimate with the tooltip. -/
def renderCapacity (effective : Option Nat) (attendance : Option Nat)
    (snapshotCapacity : Option Nat) (prefixMax : Option Nat) : CapacityDisplay :=
  match effective with
  | some v =>
    if v ≠ 0 then .known v
    else .estimate snapshotCapacity (getCapacityTooltip attendance snapshotCapacity prefixMax)
  | none => .estimate snapshotCapacity (getCapacityTooltip attendance snapshotCapacity prefixMax)

/-- JS `x || d` on an optional number: a missing or zero value falls back
to the default. -/
def jsOrZero (a : Option Nat) (d : Nat) : Nat :=
  match a with
  | some v => if v = 0 then d else v
  | none => d

/-- Embeds the `totalCapacity` computation (lines 873-876): per section,
the effective capacity if truthy, else the selected snapshot capacity,
else 0, summed. -/
def totalCapacity (effective : Sect → Option Nat) (selectedSnapshot : Option Snapshot) : Nat :=
  jsOrZero (effective .bleachers) ((selectedSnapshot.map (fun s => s.bleachers_capacity)).getD 0) +
  jsOrZero (effective .courtside) ((selectedSnapshot.map (fun s => s.courtside_capacity)).getD 0) +
  jsOrZero (effective .lower_tier) ((selectedSnapshot.map (fun s => s.lower_tier_capacity)).getD 0) +
  jsOrZero (effective .luxury_boxes) ((selectedSnapshot.map (fun s => s.luxury_boxes_capacity)).getD 0)

/-- A snapshot is the nearest one dated at or before `gd` in the history:
it belongs to the history, is dated at or before `gd`, and no history
snapshot dated at or before `gd` is dated later than it. -/
def isNearestBefore (hist : List Snapshot) (gd : Nat) (b : Snapshot) : Prop :=
  b ∈ hist ∧ b.created_at ≤ gd ∧
    ∀ s ∈ hist, s.created_at ≤ gd → s.created_at ≤ b.created_at

/-- A snapshot is the nearest one dated strictly after `gd` in the
history: it belongs to the history, is dated strictly after `gd`, and no
history snapshot dated strictly after `gd` is dated earlier than it. -/
def isNearestAfter (hist : List Snapshot) (gd : Nat) (a : Snapshot) : Prop :=
  a ∈ hist ∧ gd < a.created_at ∧
    ∀ s ∈ hist, gd < s.created_at → a.created_at ≤ s.created_at

instance (hist : List Snapshot) (gd : Nat) (b : Snapshot) :
    Decidable (isNearestBefore hist gd b) := by
  unfold isNearestBefore; infer_instance

instance (hist : List Snapshot) (gd : Nat) (a : Snapshot) :
    Decidable (isNearestAfter hist gd a) := by
  unfold isNearestAfter; infer_instance

/-! ### Helper lemmas about the snapshot bracketing loop -/

theorem two_le_length_of_mem_ne {α : Type _} {l : List α} {x y : α}
    (hx : x ∈ l) (hy : y ∈ l) (hne : x ≠ y) : 2 ≤ l.length := by
  match l with
  | [] => cases hx
  | [z] =>
    simp only [List.mem_singleton] at hx hy
    exact absurd (hx.trans hy.symm) hne
  | a :: b :: t => simp only [List.length_cons]; omega

theorem sortAsc_sorted (l : List Snapshot) :
    (sortAsc l).Pairwise (fun a b => a.created_at ≤ b.created_at) := by
  haveI : IsTotal Snapshot (fun a b => a.created_at ≤ b.created_at) :=
    ⟨fun a b => Nat.le_total _ _⟩
  haveI : IsTrans Snapshot (fun a b => a.created_at ≤ b.created_at) :=
    ⟨fun _ _ _ hab hbc => Nat.le_trans hab hbc⟩
  exact List.sorted_insertionSort _ l

theorem sortAsc_perm (l : List Snapshot) : (sortAsc l).Perm l :=
  List.perm_insertionSort _ l

theorem sortAsc_mem (l : List Snapshot) (x : Snapshot) : x ∈ sortAsc l ↔ x ∈ l :=
  (sortAsc_perm l).mem_iff

theorem dates_inj_of_pairwise_ne {hist : List Snapshot}
    (h : hist.Pairwise (fun a b => a.created_at ≠ b.created_at)) :
    ∀ x ∈ hist, ∀ y ∈ hist, x.created_at = y.created_at → x = y := by
  intro x hx y hy heq
  by_contra hne
  exact (h.forall (fun a b hab => Ne.symm hab) hx hy hne) heq

theorem bracketLoop_sorted_spec (gd : Nat) (l : List Snapshot) :
    ∀ b0 : Option Snapshot,
      l.Pairwise (fun x y => x.created_at ≤ y.created_at) →
      (((∀ s ∈ l, gd < s.created_at) ∧ (bracketLoop gd l b0).1 = b0) ∨
        (∃ b, (bracketLoop gd l b0).1 = some b ∧ b ∈ l ∧ b.created_at ≤ gd ∧
          ∀ s ∈ l, s.created_at ≤ gd → s.created_at ≤ b.created_at)) ∧
      (((∀ s ∈ l, s.created_at ≤ gd) ∧ (bracketLoop gd l b0).2 = none) ∨
        (∃ a, (bracketLoop gd l b0).2 = some a ∧ a ∈ l ∧ gd < a.created_at ∧
          ∀ s ∈ l, gd < s.created_at → a.created_at ≤ s.created_at)) := by
  induction l with
  | nil =>
    intro b0 _
    constructor
    · left; exact ⟨by simp, rfl⟩
    · left; exact ⟨by simp, rfl⟩
  | cons s rest ih =>
    intro b0 hs
    rw [List.pairwise_cons] at hs
    obtain ⟨hhead, htail⟩ := hs
    by_cases h : s.created_at ≤ gd
    · have hloop : bracketLoop gd (s :: rest) b0 = bracketLoop gd rest (some s) := by
        simp [bracketLoop, h]
      obtain ⟨ihb, iha⟩ := ih (some s) htail
      constructor
      · rcases ihb with ⟨hall, heq⟩ | ⟨b, heq, hmem, hble, hmax⟩
        · right
          refine ⟨s, by rw [hloop]; exact heq, List.mem_cons_self s rest, h, ?_⟩
          intro t ht htle
          rcases List.mem_cons.mp ht with rfl | ht'
          · exact Nat.le_refl _
          · exact absurd htle (Nat.not_le.mpr (hall t ht'))
        · right
          refine ⟨b, by rw [hloop]; exact heq, List.mem_cons_of_mem _ hmem, hble, ?_⟩
          intro t ht htle
          rcases List.mem_cons.mp ht with rfl | ht'
          · exact hhead b hmem
          · exact hmax t ht' htle
      · rcases iha with ⟨hall, heq⟩ | ⟨a, heq, hmem, hgt, hmin⟩
        · left
          refine ⟨?_, by rw [hloop]; exact heq⟩
          intro t ht
          rcases List.mem_cons.mp ht with rfl | ht'
          · exact h
          · exact hall t ht'
        · right
          refine ⟨a, by rw [hloop]; exact heq, List.mem_cons_of_mem _ hmem, hgt, ?_⟩
          intro t ht htgt
          rcases List.mem_cons.mp ht with rfl | ht'
          · omega
          · exact hmin t ht' htgt
    · have hgt : gd < s.created_at := Nat.not_le.mp h
      have hloop : bracketLoop gd (s :: rest) b0 = (b0, some s) := by
        simp [bracketLoop, h]
      constructor
      · left
        refine ⟨?_, by rw [hloop]⟩
        intro t ht
        rcases List.mem_cons.mp ht with rfl | ht'
        · exact hgt
        · exact Nat.lt_of_lt_of_le hgt (hhead t ht')
      · right
        refine ⟨s, by rw [hloop], List.mem_cons_self s rest, hgt, ?_⟩
        intro t ht _
        rcases List.mem_cons.mp ht with rfl | ht'
        · exact Nat.le_refl _
        · exact hhead t ht'

theorem isNearestBefore_unique {hist : List Snapshot} {gd : Nat} {b b' : Snapshot}
    (hinj : ∀ x ∈ hist, ∀ y ∈ hist, x.created_at = y.created_at → x = y)
    (h1 : isNearestBefore hist gd b) (h2 : isNearestBefore hist gd b') : b = b' := by
  obtain ⟨m1, d1, x1⟩ := h1
  obtain ⟨m2, d2, x2⟩ := h2
  exact hinj b m1 b' m2 (Nat.le_antisymm (x2 b m1 d1) (x1 b' m2 d2))

theorem isNearestAfter_unique {hist : List Snapshot} {gd : Nat} {a a' : Snapshot}
    (hinj : ∀ x ∈ hist, ∀ y ∈ hist, x.created_at = y.created_at → x = y)
    (h1 : isNearestAfter hist gd a) (h2 : isNearestAfter hist gd a') : a = a' := by
  obtain ⟨m1, d1, x1⟩ := h1
  obtain ⟨m2, d2, x2⟩ := h2
  exact hinj a m1 a' m2 (Nat.le_antisymm (x1 a' m2 d2) (x2 a m1 d1))

theorem nearestBefore_of_sorted {hist : List Snapshot} {gd : Nat} {b : Snapshot}
    (hmem : b ∈ sortAsc hist) (hble : b.created_at ≤ gd)
    (hmax : ∀ s ∈ sortAsc hist, s.created_at ≤ gd → s.created_at ≤ b.created_at) :
    isNearestBefore hist gd b := by
  refine ⟨(sortAsc_mem hist b).mp hmem, hble, ?_⟩
  intro s hs hsle
  exact hmax s ((sortAsc_mem hist s).mpr hs) hsle

theorem nearestAfter_of_sorted {hist : List Snapshot} {gd : Nat} {a : Snapshot}
    (hmem : a ∈ sortAsc hist) (hagt : gd < a.created_at)
    (hmin : ∀ s ∈ sortAsc hist, gd < s.created_at → a.created_at ≤ s.created_at) :
    isNearestAfter hist gd a := by
  refine ⟨(sortAsc_mem hist a).mp hmem, hagt, ?_⟩
  intro s hs hsgt
  exact hmin s ((sortAsc_mem hist s).mpr hs) hsgt

theorem getKnownCapacities_some_iff (hist : List Snapshot) (gd : Nat) (sec : Sect) (v : Nat)
    (hinj : ∀ x ∈ hist, ∀ y ∈ hist, x.created_at = y.created_at → x = y) :
    getKnownCapacities hist (some gd) sec = some v ↔
      ∃ b a, isNearestBefore hist gd b ∧ isNearestAfter hist gd a ∧
        b.capacity sec = v ∧ a.capacity sec = v := by
  by_cases hlen : hist.length < 2
  · constructor
    · intro h
      exfalso
      simp [getKnownCapacities, hlen] at h
    · rintro ⟨b, a, ⟨hbm, hbd, -⟩, ⟨ham, had, -⟩, -, -⟩
      exfalso
      have hne : b ≠ a := by
        intro he
        subst he
        omega
      have := two_le_length_of_mem_ne hbm ham hne
      omega
  · rcases hrr : bracketLoop gd (sortAsc hist) none with ⟨r1, r2⟩
    obtain ⟨hbpart, hapart⟩ := bracketLoop_sorted_spec gd (sortAsc hist) none (sortAsc_sorted hist)
    rw [hrr] at hbpart hapart
    constructor
    · intro h
      cases r1 with
      | none => simp [getKnownCapacities, hlen, hrr] at h
      | some b =>
        cases r2 with
        | none => simp [getKnownCapacities, hlen, hrr] at h
        | some a =>
          simp only [getKnownCapacities, if_neg hlen, hrr] at h
          rcases hbpart with ⟨-, hb0⟩ | ⟨b', hb', hbm, hbd, hbmax⟩
          · exact absurd hb0 (by simp)
          · rcases hapart with ⟨-, ha0⟩ | ⟨a', ha', ham, had, hamin⟩
            · exact absurd ha0 (by simp)
            · simp only [Option.some.injEq] at hb' ha'
              subst hb'
              subst ha'
              by_cases hcap : b.capacity sec = a.capacity sec
              · rw [if_pos hcap] at h
                simp only [Option.some.injEq] at h
                exact ⟨b, a, nearestBefore_of_sorted hbm hbd hbmax,
                  nearestAfter_of_sorted ham had hamin, h, hcap ▸ h⟩
              · rw [if_neg hcap] at h
                cases h
    · rintro ⟨b, a, hb, ha, hbv, hav⟩
      have hbs : b ∈ sortAsc hist := (sortAsc_mem hist b).mpr hb.1
      have has : a ∈ sortAsc hist := (sortAsc_mem hist a).mpr ha.1
      rcases hbpart with ⟨hall, -⟩ | ⟨b', hb', hbm, hbd, hbmax⟩
      · exact absurd hb.2.1 (Nat.not_le.mpr (hall b hbs))
      · rcases hapart with ⟨hall, -⟩ | ⟨a', ha', ham, had, hamin⟩
        · exact absurd ha.2.1 (Nat.not_lt.mpr (hall a has))
        · have hbb : b' = b :=
            isNearestBefore_unique hinj (nearestBefore_of_sorted hbm hbd hbmax) hb
          have haa : a' = a :=
            isNearestAfter_unique hinj (nearestAfter_of_sorted ham had hamin) ha
          subst hbb
          subst haa
          subst hb'
          subst ha'
          simp [getKnownCapacities, if_neg hlen, hrr, hbv, hav]

/-! ### Concrete data used by witnesses and counterexamples -/

/-- Snapshot dated before the example game, bleachers capacity 18000. -/
def exBefore : Snapshot := ⟨1, 10, 18000, 100, 50, 10, false⟩

/-- Snapshot dated after the example game, bleachers capacity 18500. -/
def exAfter : Snapshot := ⟨2, 30, 18500, 100, 50, 10, false⟩

/-- Two-snapshot history bracketing the example game date 20. -/
def exHistory : List Snapshot := [exBefore, exAfter]

/-- Example game at date 20 whose bleachers attendance 18500 equals the
later snapshot's bleachers capacity (the sold-out scenario). -/
def exSoldOutGame : Game :=
  ⟨some 20, some (fun sec => match sec with | .bleachers => some 18500 | _ => some 0)⟩

/-- Example game at date 20 with bleachers attendance 12000, below both
bracketing capacities. -/
def exQuietGame : Game :=
  ⟨some 20, some (fun sec => match sec with | .bleachers => some 12000 | _ => some 0)⟩


/-- Snapshot A of the C6 counterexample history. -/
def cexA : Snapshot := ⟨11, 1, 100, 40, 40, 40, false⟩

/-- Intervening snapshot of the C6 counterexample history, disagreeing on
the bleachers capacity. -/
def cexMid : Snapshot := ⟨12, 2, 200, 40, 40, 40, false⟩

/-- Snapshot B of the C6 counterexample history. -/
def cexB : Snapshot := ⟨13, 4, 100, 40, 40, 40, false⟩

/-- The C6 counterexample history. -/
def cexHistory : List Snapshot := [cexA, cexMid, cexB]

/-! ### Claim theorems -/

/-- C1: for a history with pairwise-distinct snapshot timestamps, the
capacity reconciliation `getKnownCapacities` reports a section as known
with value `v` iff the nearest snapshot dated at or before the selected
game date and the nearest snapshot dated strictly after it both exist and
both report `v` for that section; in every other case (missing bracket
side, disagreeing bracket values, fewer than two snapshots, or no selected
game date) the section is reported as not known (`none`). -/
theorem claim_C1_known_iff_nearest_brackets (hist : List Snapshot) (gameDate : Option Nat)
    (sec : Sect) (v : Nat)
    (hdist : hist.Pairwise (fun a b => a.created_at ≠ b.created_at)) :
    getKnownCapacities hist gameDate sec = some v ↔
      ∃ gd b a, gameDate = some gd ∧ isNearestBefore hist gd b ∧ isNearestAfter hist gd a ∧
        b.capacity sec = v ∧ a.capacity sec = v := by
  cases gameDate with
  | none =>
    constructor
    · intro h
      exfalso
      by_cases hlen : hist.length < 2 <;> simp [getKnownCapacities, hlen] at h
    · rintro ⟨gd, b, a, h, -⟩
      cases h
  | some gd =>
    rw [getKnownCapacities_some_iff hist gd sec v (dates_inj_of_pairwise_ne hdist)]
    constructor
    · rintro ⟨b, a, hb, ha, hbv, hav⟩
      exact ⟨gd, b, a, rfl, hb, ha, hbv, hav⟩
    · rintro ⟨gd', b, a, hg, hb, ha, hbv, hav⟩
      cases hg
      exact ⟨b, a, hb, ha, hbv, hav⟩

/-- Witness for C1: the characterization instantiated at the concrete
two-snapshot history, game date 20 and the lower tier section. -/
theorem claim_C1_witness :
    exHistory.Pairwise (fun a b => a.created_at ≠ b.created_at) ∧
    (getKnownCapacities exHistory (some 20) Sect.lower_tier = some 100 ↔
      ∃ gd b a, (some 20 : Option Nat) = some gd ∧ isNearestBefore exHistory gd b ∧
        isNearestAfter exHistory gd a ∧ b.capacity Sect.lower_tier = 100 ∧
        a.capacity Sect.lower_tier = 100) :=
  ⟨by decide,
    claim_C1_known_iff_nearest_brackets exHistory (some 20) Sect.lower_tier 100 (by decide)⟩

/-- C2: evaluation of the reconciliation pipeline on the specification's
sold-out scenario (snapshot capacities 18000 before / 18500 after the
game, attendance 18500 at the game).  The pipeline auto-selects the
earlier snapshot (capacity 18000), so the attendance never matches the
selected capacity and the bleachers section is reported uncertain
(`none`) — not known(18500) as the specification's scenario requires,
even though the nearest later snapshot reports 18500. -/
theorem claim_C2_sold_out_scenario_eval :
    autoSelectedSnapshot exHistory exSoldOutGame = some exBefore ∧
    exBefore.capacity Sect.bleachers = 18000 ∧
    isNearestAfter exHistory 20 exAfter ∧
    exAfter.capacity Sect.bleachers = 18500 ∧
    reconcile exHistory exSoldOutGame none Sect.bleachers = none := by decide

/-- C3: for any selected game with attendance data and any section not
already known from bracketing snapshots, if the game's attendance in the
section equals the section's computed upper bound — the capacity of the
snapshot auto-selected for the game, which is exactly the value rendered
as the `≤` estimate — then the reconciliation reports the section as known
with that value. -/
theorem claim_C3_attendance_at_upper_bound_known (hist : List Snapshot) (g : Game)
    (pm : Option (Sect → Option Nat)) (sec : Sect) (att : Sect → Option Nat) (snap : Snapshot)
    (hatt : g.attendance = some att)
    (hsnap : autoSelectedSnapshot hist g = some snap)
    (hknown : getKnownCapacities hist g.date sec = none)
    (heq : att sec = some (snap.capacity sec)) :
    reconcile hist g pm sec = some (snap.capacity sec) := by
  simp only [reconcile, getEffectiveCapacities, hatt, hsnap]
  simp [checkAttendanceEqualsCapacity, hknown, heq]

/-- Witness for C3: bleachers attendance 18000 equals the auto-selected
(earlier) snapshot's capacity, so the section becomes known(18000). -/
theorem claim_C3_witness :
    (Game.mk (some 20) (some (fun _ => some 18000))).attendance =
        some (fun _ => some 18000) ∧
    autoSelectedSnapshot exHistory (Game.mk (some 20) (some (fun _ => some 18000))) =
        some exBefore ∧
    getKnownCapacities exHistory (some 20) Sect.bleachers = none ∧
    reconcile exHistory (Game.mk (some 20) (some (fun _ => some 18000))) none Sect.bleachers =
      some (exBefore.capacity Sect.bleachers) :=
  ⟨rfl, by decide, by decide,
    claim_C3_attendance_at_upper_bound_known exHistory _ none Sect.bleachers _ exBefore
      rfl (by decide) (by decide) (by decide)⟩

/-- C4: with a game strictly between two snapshot groups, the bleachers
section is uncertain and the nearest later snapshot reports 18500, but the
upper bound shown in the rendering and the tooltip is 18000, taken from
the snapshot auto-selected by `findSnapshotForGame` — which here is the
nearest EARLIER snapshot, not the nearest later one. -/
theorem claim_C4_upper_bound_eval :
    reconcile exHistory exQuietGame none Sect.bleachers = none ∧
    isNearestAfter exHistory 20 exAfter ∧
    exAfter.capacity Sect.bleachers = 18500 ∧
    renderCapacity (reconcile exHistory exQuietGame none Sect.bleachers) (some 12000)
        ((autoSelectedSnapshot exHistory exQuietGame).map (fun s => s.capacity Sect.bleachers))
        none =
      CapacityDisplay.estimate (some 18000)
        ⟨some 18000, some (12000, BoundSource.attendanceOnly)⟩ := by decide

/-- C5: whenever a section renders as an uncertain estimate, the tooltip
reports a lower bound `b` exactly when `b` is the maximum of the game's
attendance in the section and the prefix maximum attendance of earlier
games (missing values treated as 0) and that maximum is positive. -/
theorem claim_C5_lower_bound_is_max (eff att snapCap pm : Option Nat) (ub : Option Nat)
    (tip : CapacityTooltip)
    (hrender : renderCapacity eff att snapCap pm = CapacityDisplay.estimate ub tip) :
    ∀ b : Nat, (∃ src, tip.lowerBound = some (b, src)) ↔
      (b = max (att.getD 0) (pm.getD 0) ∧ 0 < b) := by
  have htip : tip = getCapacityTooltip att snapCap pm := by
    cases eff with
    | none =>
      simp only [renderCapacity] at hrender
      injection hrender with h1 h2
      exact h2.symm
    | some v =>
      simp only [renderCapacity] at hrender
      by_cases hv : v ≠ 0
      · rw [if_pos hv] at hrender
        cases hrender
      · rw [if_neg hv] at hrender
        injection hrender with h1 h2
        exact h2.symm
  subst htip
  intro b
  simp only [getCapacityTooltip]
  by_cases hpos : 0 < max (att.getD 0) (pm.getD 0)
  · rw [if_pos hpos]
    constructor
    · rintro ⟨src, hsrc⟩
      simp only [Option.some.injEq, Prod.mk.injEq] at hsrc
      exact ⟨hsrc.1.symm, hsrc.1 ▸ hpos⟩
    · rintro ⟨rfl, -⟩
      exact ⟨_, rfl⟩
  · rw [if_neg hpos]
    constructor
    · rintro ⟨src, hsrc⟩
      cases hsrc
    · rintro ⟨rfl, hb⟩
      exact absurd hb hpos

/-- Witness for C5 at the concrete uncertain bleachers rendering. -/
theorem claim_C5_witness :
    renderCapacity none (some 12000) (some 18000) none =
        CapacityDisplay.estimate (some 18000)
          ⟨some 18000, some (12000, BoundSource.attendanceOnly)⟩ ∧
    ∀ b : Nat,
      (∃ src, (CapacityTooltip.mk (some 18000)
          (some (12000, BoundSource.attendanceOnly))).lowerBound = some (b, src)) ↔
        (b = max ((some 12000 : Option Nat).getD 0) ((none : Option Nat).getD 0) ∧ 0 < b) :=
  ⟨by decide,
    claim_C5_lower_bound_is_max none (some 12000) (some 18000) none (some 18000) _ (by decide)⟩

/-- C6 counterexample: snapshots A (date 1) and B (date 4) both report
bleachers capacity 100 and the game date 3 lies between them, yet because
an intervening snapshot (date 2) reports 200, the reconciliation does not
report the section as known(100): the property fails for histories with
further snapshots between A and B. -/
theorem claim_C6_counterexample :
    cexA.created_at < cexB.created_at ∧
    cexA.capacity Sect.bleachers = 100 ∧
    cexB.capacity Sect.bleachers = 100 ∧
    cexA.created_at ≤ 3 ∧ (3 : Nat) < cexB.created_at ∧
    getKnownCapacities cexHistory (some 3) Sect.bleachers = none := by decide

/-- C6 (amended): if snapshots A (earlier) and B (later) both belong to
the history, the game date lies in `[A.created_at, B.created_at)`, and
every history snapshot dated within `[A.created_at, B.created_at]`
reports value `v` for the section, then the reconciliation reports the
section as known(`v`) — for all such histories. -/
theorem claim_C6_amended_bracket_known (hist : List Snapshot) (gd : Nat) (sec : Sect)
    (v : Nat) (A B : Snapshot) (hA : A ∈ hist) (hB : B ∈ hist)
    (hAd : A.created_at ≤ gd) (hBd : gd < B.created_at)
    (hagree : ∀ s ∈ hist, A.created_at ≤ s.created_at → s.created_at ≤ B.created_at →
      s.capacity sec = v) :
    getKnownCapacities hist (some gd) sec = some v := by
  have hlen : ¬ hist.length < 2 := by
    have hne : A ≠ B := by
      intro he
      rw [he] at hAd
      omega
    have := two_le_length_of_mem_ne hA hB hne
    omega
  rcases hrr : bracketLoop gd (sortAsc hist) none with ⟨r1, r2⟩
  obtain ⟨hbpart, hapart⟩ := bracketLoop_sorted_spec gd (sortAsc hist) none (sortAsc_sorted hist)
  rw [hrr] at hbpart hapart
  have hAs : A ∈ sortAsc hist := (sortAsc_mem hist A).mpr hA
  have hBs : B ∈ sortAsc hist := (sortAsc_mem hist B).mpr hB
  rcases hbpart with ⟨hall, -⟩ | ⟨b, hb1, hbm, hbd, hbmax⟩
  · exact absurd hAd (Nat.not_le.mpr (hall A hAs))
  · rcases hapart with ⟨hall, -⟩ | ⟨a, ha2, ham, had, hamin⟩
    · exact absurd hBd (Nat.not_lt.mpr (hall B hBs))
    · subst hb1
      subst ha2
      have hbv : b.capacity sec = v :=
        hagree b ((sortAsc_mem hist b).mp hbm) (hbmax A hAs hAd)
          (Nat.le_trans hbd (Nat.le_of_lt hBd))
      have hav : a.capacity sec = v :=
        hagree a ((sortAsc_mem hist a).mp ham) (Nat.le_trans hAd (Nat.le_of_lt had))
          (hamin B hBs hBd)
      simp [getKnownCapacities, if_neg hlen, hrr, hbv, hav]

/-- Witness for the amended C6 at the concrete history: the lower tier
capacity 100 is constant across the bracket, so the section is known. -/
theorem claim_C6_amended_witness :
    exBefore ∈ exHistory ∧ exAfter ∈ exHistory ∧ exBefore.created_at ≤ 20 ∧
    (20 : Nat) < exAfter.created_at ∧
    (∀ s ∈ exHistory, exBefore.created_at ≤ s.created_at →
      s.created_at ≤ exAfter.created_at → s.capacity Sect.lower_tier = 100) ∧
    getKnownCapacities exHistory (some 20) Sect.lower_tier = some 100 :=
  ⟨by decide, by decide, by decide, by decide, by decide,
    claim_C6_amended_bracket_known exHistory 20 Sect.lower_tier 100 exBefore exAfter
      (by decide) (by decide) (by decide) (by decide) (by decide)⟩

/-- C7 counterexample: the bleachers section is uncertain (`none`) at the
selected game, yet the derived total-capacity figure substitutes the
selected snapshot's point value 18000 for it, producing the single point
total 18160: the uncertain section is collapsed into a point estimate in
a value shown to the caller. -/
theorem claim_C7_counterexample :
    reconcile exHistory exQuietGame none Sect.bleachers = none ∧
    totalCapacity (reconcile exHistory exQuietGame none)
        (autoSelectedSnapshot exHistory exQuietGame) = 18160 := by decide

/-- C7 (amended): per section, the reported capacity result has exactly
two shapes — a known point value, exactly when the effective capacity is a
nonzero value, and otherwise an estimate carrying the selected snapshot
capacity as upper bound together with the tooltip bounds; the derived
total-capacity figure is exempt from the claim, as it substitutes the
selected snapshot's capacity (or 0) for uncertain sections. -/
theorem claim_C7_amended_two_shapes (eff att snapCap pm : Option Nat) :
    (∃ v, renderCapacity eff att snapCap pm = CapacityDisplay.known v ∧
      eff = some v ∧ v ≠ 0) ∨
    (renderCapacity eff att snapCap pm =
        CapacityDisplay.estimate snapCap (getCapacityTooltip att snapCap pm) ∧
      (eff = none ∨ eff = some 0)) := by
  cases eff with
  | none => exact Or.inr ⟨by simp [renderCapacity], Or.inl rfl⟩
  | some v =>
    by_cases hv : v ≠ 0
    · exact Or.inl ⟨v, by simp [renderCapacity, hv], rfl, hv⟩
    · right
      rw [not_not] at hv
      subst hv
      exact ⟨by simp [renderCapacity], Or.inr rfl⟩

/-- C9: for a section not known from bracketing snapshots whose attendance
differs from the selected snapshot's capacity, a prefix maximum strictly
above the attendance and equal to the snapshot capacity makes
`getEffectiveCapacities` report the section as known with the snapshot's
capacity. -/
theorem claim_C9_prefix_max_confirms (hist : List Snapshot) (gameDate : Option Nat)
    (sec : Sect) (att pmf : Sect → Option Nat) (snap : Snapshot) (a p : Nat)
    (hknown : getKnownCapacities hist gameDate sec = none)
    (ha : att sec = some a) (hp : pmf sec = some p)
    (hne : a ≠ snap.capacity sec) (hgt : a < p) (hcap : p = snap.capacity sec) :
    getEffectiveCapacities hist gameDate (some att) (some snap) (some pmf) sec =
      some (snap.capacity sec) := by
  simp only [getEffectiveCapacities]
  simp only [checkAttendanceEqualsCapacity, hknown, ha, hp]
  have h1 : ¬ (some a = some (snap.capacity sec)) := by simpa using hne
  rw [if_neg h1]
  have h2 : p ≠ 0 ∧ a < p ∧ p = snap.capacity sec := ⟨by omega, hgt, hcap⟩
  rw [if_pos h2]

/-- Witness for C9: earlier games filled all 18000 bleachers seats while
this game drew 12000, so the earlier-games maximum confirms the selected
snapshot's capacity. -/
theorem claim_C9_witness :
    getKnownCapacities exHistory (some 20) Sect.bleachers = none ∧
    (12000 : Nat) < 18000 ∧
    getEffectiveCapacities exHistory (some 20) (some (fun _ => some 12000)) (some exBefore)
        (some (fun _ => some 18000)) Sect.bleachers = some (exBefore.capacity Sect.bleachers) :=
  ⟨by decide, by decide,
    claim_C9_prefix_max_confirms exHistory (some 20) Sect.bleachers _ _ exBefore 12000 18000
      (by decide) rfl rfl (by decide) (by decide) (by decide)⟩

/-! ### Pricing-period model (spec sections 3 and 4.2-4.4)

The Period Builder and Game Assigner run in the backend, whose sources are
not part of the frontend tree; the definitions below are modelled from the
specification. -/

/-- Modelled from the spec: an Observation of the classified stream
(spec section 3) — a price change or a game appearing in the scraped
page, with its structural position (0 = most recent, larger = older) and
calendar date. -/
inductive Observation
  | priceChange (structuralPosition : Nat) (calendarDate : Nat) (priceVector : List Nat)
  | gameObs (structuralPosition : Nat) (calendarDate : Nat) (gameId : Nat)
deriving DecidableEq, Repr

/-- Structural position of an observation. -/
def Observation.pos : Observation → Nat
  | .priceChange p _ _ => p
  | .gameObs p _ _ => p

/-- Modelled from the spec: a pricing Period (spec section 3): ordinal,
structural position bounds (half-open on the more recent side, the most
recent period open toward now), price vector (`none` = unknown), and the
calendar dates of its opening and closing price changes when they exist. -/
structure PeriodM where
  ordinal : Nat
  startBound : Nat
  endBound : Option Nat
  priceVector : Option (List Nat)
  startDate : Option Nat
  endDate : Option Nat
deriving DecidableEq, Repr

/-- Modelled from the spec: a known game to be assigned (spec section
4.3); `structuralPosition` is present only for games that appeared in the
scraped page. -/
structure GameM where
  gameId : Nat
  structuralPosition : Option Nat
  calendarDate : Nat
deriving DecidableEq, Repr

/-- Modelled from the spec: evidence kind of an assignment (spec sections
3 and 4.3). -/
inductive EvidenceKind
  | structural
  | dateFallback
  | dateFallbackAmbiguous
deriving DecidableEq, Repr

/-- Modelled from the spec: the Period Builder fold (spec section 4.2):
walk the chronological observation stream (largest structural position
first); a price change closes the open period immediately before its own
position and opens a new one; games do not affect boundaries; the final
period stays open toward the present. -/
def buildLoop : List Observation → Nat → Option (List Nat) → Option Nat → List PeriodM →
    List PeriodM
  | [], openStart, openPrice, openDate, acc =>
    acc ++ [⟨acc.length, openStart, none, openPrice, openDate, none⟩]
  | o :: rest, openStart, openPrice, openDate, acc =>
    match o with
    | .priceChange p d v =>
      if p = openStart then buildLoop rest p (some v) (some d) acc
      else
        buildLoop rest p (some v) (some d)
          (acc ++ [⟨acc.length, openStart, some p, openPrice, openDate, some d⟩])
    | .gameObs _ _ _ => buildLoop rest openStart openPrice openDate acc

/-- Modelled from the spec: the Period Builder (spec section 4.2),
iterating the classified observations from largest structural position
(oldest) to smallest, starting with period 0 open at the oldest
boundary with unknown price. -/
def periodBuilder (obs : List Observation) : List PeriodM :=
  let chron := List.insertionSort (fun a b => b.pos ≤ a.pos) obs
  buildLoop chron ((chron.head?.map Observation.pos).getD 0) none none []

/-- Modelled from the spec: a period's structural-position range contains
a position (half-open on the more recent side; the most recent period is
open toward now). -/
def PeriodM.containsPos (p : PeriodM) (pos : Nat) : Bool :=
  pos ≤ p.startBound &&
    match p.endBound with
    | some e => e < pos
    | none => true

/-- Modelled from the spec: a period's boundary price-change dates bracket
a calendar date (spec section 4.3 rule 2). -/
def PeriodM.containsDate (p : PeriodM) (d : Nat) : Bool :=
  (match p.startDate with
   | some s => s ≤ d
   | none => true) &&
  (match p.endDate with
   | some e => d < e
   | none => true)

/-- Modelled from the spec: a date coincides with some period boundary
observation's date, making date-fallback assignment ambiguous (spec
section 4.3 rule 2). -/
def dateAmbiguous (periods : List PeriodM) (d : Nat) : Bool :=
  periods.any (fun p => p.startDate == some d || p.endDate == some d)

/-- Modelled from the spec: the Game Assigner rule for one game (spec
section 4.3): structural evidence first (the period whose position range
contains the game's position), calendar-date fallback otherwise, flagged
ambiguous on boundary-date ties. -/
def assignGame (periods : List PeriodM) (g : GameM) : Nat × EvidenceKind :=
  match g.structuralPosition with
  | some pos =>
    (((periods.find? (fun p => p.containsPos pos)).map (fun p => p.ordinal)).getD 0,
      .structural)
  | none =>
    (((periods.find? (fun p => p.containsDate g.calendarDate)).map
        (fun p => p.ordinal)).getD 0,
      if dateAmbiguous periods g.calendarDate then .dateFallbackAmbiguous else .dateFallback)

/-- Modelled from the spec: the Game Assigner output — one assignment
entry `(gameId, ordinal, evidenceKind)` per known game (spec section
4.3). -/
def gameAssigner (periods : List PeriodM) (games : List GameM) :
    List (Nat × Nat × EvidenceKind) :=
  games.map (fun g => (g.gameId, assignGame periods g))

/-- C8: for every period list and known-game list (with pairwise-distinct
game IDs, as IDs identify games), the produced assignment is total and
functional — each known game ID appears in exactly one assignment entry,
hence maps to exactly one period ordinal — and rerunning the Game
Assigner on the same input yields the identical assignment. -/
theorem claim_C8_assignment_total_functional (periods : List PeriodM) (games : List GameM)
    (hids : (games.map (fun g => g.gameId)).Nodup) :
    (∀ gid ∈ games.map (fun g => g.gameId),
      (gameAssigner periods games).countP (fun e => e.1 == gid) = 1) ∧
    gameAssigner periods games = gameAssigner periods games := by
  refine ⟨?_, rfl⟩
  intro gid hgid
  have h1 : (gameAssigner periods games).countP (fun e => e.1 == gid) =
      (games.map (fun g => g.gameId)).countP (fun x => x == gid) := by
    simp only [gameAssigner, List.countP_map]
    rfl
  rw [h1]
  exact List.count_eq_one_of_mem hids hgid

/-- Observations of the spec section 8 scenario, plus games; used as the
concrete input of the C8 witness. -/
def exObservations : List Observation :=
  [.priceChange 4 100 [10], .gameObs 3 200 71, .priceChange 1 300 [20], .gameObs 0 400 72]

/-- Periods built from the scenario observations. -/
def exPeriods : List PeriodM := periodBuilder exObservations

/-- Known games of the C8 witness: two scraped games and one storage-only
game assigned by date fallback. -/
def exGames : List GameM := [⟨71, some 3, 200⟩, ⟨72, some 0, 400⟩, ⟨73, none, 350⟩]

/-- Witness for C8 at the concrete scenario input. -/
theorem claim_C8_witness :
    (exGames.map (fun g => g.gameId)).Nodup ∧
    ((∀ gid ∈ exGames.map (fun g => g.gameId),
        (gameAssigner exPeriods exGames).countP (fun e => e.1 == gid) = 1) ∧
      gameAssigner exPeriods exGames = gameAssigner exPeriods exGames) :=
  ⟨by decide, claim_C8_assignment_total_functional exPeriods exGames (by decide)⟩

/-! ### Helper lemmas about snapshot grouping -/

theorem sortDesc_sorted (l : List Snapshot) :
    (sortDesc l).Pairwise (fun a b => b.created_at ≤ a.created_at) := by
  haveI : IsTotal Snapshot (fun a b => b.created_at ≤ a.created_at) :=
    ⟨fun a b => Nat.le_total _ _⟩
  haveI : IsTrans Snapshot (fun a b => b.created_at ≤ a.created_at) :=
    ⟨fun _ _ _ hab hbc => Nat.le_trans hbc hab⟩
  exact List.sorted_insertionSort _ l

theorem sortDesc_perm (l : List Snapshot) : (sortDesc l).Perm l :=
  List.perm_insertionSort _ l

theorem ident_iff (s1 s2 : Snapshot) :
    areSnapshotsIdentical s1 s2 = true ↔
      s1.bleachers_capacity = s2.bleachers_capacity ∧
      s1.lower_tier_capacity = s2.lower_tier_capacity ∧
      s1.courtside_capacity = s2.courtside_capacity ∧
      s1.luxury_boxes_capacity = s2.luxury_boxes_capacity ∧
      s1.expansion_in_progress = s2.expansion_in_progress := by
  simp [areSnapshotsIdentical, and_assoc]

theorem ident_refl (s : Snapshot) : areSnapshotsIdentical s s = true := by
  simp [areSnapshotsIdentical]

theorem ident_symm {s1 s2 : Snapshot} (h : areSnapshotsIdentical s1 s2 = true) :
    areSnapshotsIdentical s2 s1 = true := by
  rw [ident_iff] at h ⊢
  obtain ⟨a, b, c, d, e⟩ := h
  exact ⟨a.symm, b.symm, c.symm, d.symm, e.symm⟩

theorem ident_trans {s1 s2 s3 : Snapshot} (h1 : areSnapshotsIdentical s1 s2 = true)
    (h2 : areSnapshotsIdentical s2 s3 = true) : areSnapshotsIdentical s1 s3 = true := by
  rw [ident_iff] at h1 h2 ⊢
  obtain ⟨a1, b1, c1, d1, e1⟩ := h1
  obtain ⟨a2, b2, c2, d2, e2⟩ := h2
  exact ⟨a1.trans a2, b1.trans b2, c1.trans c2, d1.trans d2, e1.trans e2⟩

theorem ident_false_symm {s1 s2 : Snapshot} (h : areSnapshotsIdentical s1 s2 = false) :
    areSnapshotsIdentical s2 s1 = false := by
  by_contra hh
  rw [Bool.not_eq_false] at hh
  simp [ident_symm hh] at h

theorem groupLoop_flatten (rest : List Snapshot) :
    ∀ (cur : SnapshotGroup) (acc : List SnapshotGroup),
      ((groupLoop rest cur acc).map (fun g => g.snapshots)).flatten =
        (acc.map (fun g => g.snapshots)).flatten ++ cur.snapshots ++ rest := by
  induction rest with
  | nil =>
    intro cur acc
    simp [groupLoop]
  | cons s rest ih =>
    intro cur acc
    by_cases h : areSnapshotsIdentical s cur.representative
    · rw [groupLoop, if_pos h, ih]
      simp
    · rw [groupLoop, if_neg h, ih]
      simp

/-- All snapshots of a group are identical to its representative. -/
def groupOK (g : SnapshotGroup) : Prop :=
  ∀ x ∈ g.snapshots, areSnapshotsIdentical g.representative x = true

theorem groupLoop_groupOK (rest : List Snapshot) :
    ∀ cur acc, groupOK cur → (∀ g ∈ acc, groupOK g) →
      ∀ g ∈ groupLoop rest cur acc, groupOK g := by
  induction rest with
  | nil =>
    intro cur acc hcur hacc g hg
    simp only [groupLoop, List.mem_append, List.mem_singleton] at hg
    rcases hg with hg | rfl
    · exact hacc g hg
    · exact hcur
  | cons s rest ih =>
    intro cur acc hcur hacc g hg
    by_cases h : areSnapshotsIdentical s cur.representative
    · rw [groupLoop, if_pos h] at hg
      refine ih _ _ ?_ hacc g hg
      intro x hx
      simp only [List.mem_append, List.mem_singleton] at hx
      rcases hx with hx | rfl
      · exact hcur x hx
      · exact ident_symm h
    · rw [groupLoop, if_neg h] at hg
      refine ih _ _ ?_ ?_ g hg
      · intro x hx
        simp only [List.mem_singleton] at hx
        subst hx
        exact ident_refl _
      · intro g' hg'
        simp only [List.mem_append, List.mem_singleton] at hg'
        rcases hg' with hg' | rfl
        · exact hacc g' hg'
        · exact hcur

theorem groupLoop_chain (rest : List Snapshot) :
    ∀ cur acc,
      (acc ++ [cur]).Chain'
        (fun g1 g2 => areSnapshotsIdentical g1.representative g2.representative = false) →
      (groupLoop rest cur acc).Chain'
        (fun g1 g2 => areSnapshotsIdentical g1.representative g2.representative = false) := by
  induction rest with
  | nil =>
    intro cur acc h
    simpa [groupLoop] using h
  | cons s rest ih =>
    intro cur acc h
    by_cases hid : areSnapshotsIdentical s cur.representative
    · rw [groupLoop, if_pos hid]
      apply ih
      rw [List.chain'_append] at h ⊢
      obtain ⟨h1, -, h3⟩ := h
      refine ⟨h1, List.chain'_singleton _, ?_⟩
      intro x hx y hy
      simp only [List.head?_cons, Option.mem_def, Option.some.injEq] at hy
      subst hy
      exact h3 x hx cur (by simp)
    · rw [groupLoop, if_neg hid]
      apply ih
      rw [List.chain'_append]
      refine ⟨h, List.chain'_singleton _, ?_⟩
      intro x hx y hy
      simp only [List.head?_cons, Option.mem_def, Option.some.injEq] at hy
      subst hy
      rw [List.getLast?_concat, Option.mem_def, Option.some.injEq] at hx
      subst hx
      exact ident_false_symm (Bool.not_eq_true _ ▸ hid)

/-- A group is nonempty, its `startDate` is the timestamp of its first
snapshot and its `endDate` the timestamp of its last snapshot. -/
def groupDatesOK (g : SnapshotGroup) : Prop :=
  g.snapshots ≠ [] ∧
  g.snapshots.head?.map (fun s => s.created_at) = some g.startDate ∧
  g.snapshots.getLast?.map (fun s => s.created_at) = some g.endDate

theorem groupLoop_datesOK (rest : List Snapshot) :
    ∀ cur acc, groupDatesOK cur → (∀ g ∈ acc, groupDatesOK g) →
      ∀ g ∈ groupLoop rest cur acc, groupDatesOK g := by
  induction rest with
  | nil =>
    intro cur acc hcur hacc g hg
    simp only [groupLoop, List.mem_append, List.mem_singleton] at hg
    rcases hg with hg | rfl
    · exact hacc g hg
    · exact hcur
  | cons s rest ih =>
    intro cur acc hcur hacc g hg
    by_cases hid : areSnapshotsIdentical s cur.representative
    · rw [groupLoop, if_pos hid] at hg
      refine ih _ _ ?_ hacc g hg
      obtain ⟨hne, hh, -⟩ := hcur
      cases hcs : cur.snapshots with
      | nil => exact absurd hcs hne
      | cons hd tl =>
        rw [hcs] at hh
        refine ⟨by simp, ?_, ?_⟩
        · simpa [hcs] using hh
        · have hlast : ((hd :: tl) ++ [s]).getLast? = some s := List.getLast?_concat _
          simp only [List.cons_append] at hlast
          simp [hcs, hlast]
    · rw [groupLoop, if_neg hid] at hg
      refine ih _ _ ?_ ?_ g hg
      · exact ⟨by simp, by simp, by simp⟩
      · intro g' hg'
        simp only [List.mem_append, List.mem_singleton] at hg'
        rcases hg' with hg' | rfl
        · exact hacc g' hg'
        · exact hcur

theorem getLast_min_of_sorted (l : List Snapshot)
    (hp : l.Pairwise (fun a b => b.created_at ≤ a.created_at)) :
    ∀ lst, l.getLast? = some lst → ∀ x ∈ l, lst.created_at ≤ x.created_at := by
  induction l with
  | nil =>
    intro lst h
    cases h
  | cons a l ih =>
    intro lst h x hx
    rw [List.pairwise_cons] at hp
    obtain ⟨hrel, htail⟩ := hp
    cases l with
    | nil =>
      simp only [List.getLast?_singleton, Option.some.injEq] at h
      simp only [List.mem_singleton] at hx
      subst h
      subst hx
      exact Nat.le_refl _
    | cons b l' =>
      rw [List.getLast?_cons_cons] at h
      rcases List.mem_cons.mp hx with rfl | hx'
      · exact hrel lst (List.mem_of_getLast?_eq_some h)
      · exact ih htail lst h x hx'

/-- C10: for every nonempty snapshot list, `groupSnapshots` returns a
partition of the input ordered newest-first: the concatenation of the
groups' snapshot lists is exactly the input sorted by timestamp
descending (hence a permutation of the input, so every input snapshot
belongs to exactly one group and no snapshot is dropped or duplicated);
within a group all snapshots are pairwise identical under
`areSnapshotsIdentical`; representatives of consecutive groups differ;
and each group is nonempty with `startDate` its newest and `endDate` its
oldest snapshot timestamp. -/
theorem claim_C10_groupSnapshots_partition (snapshots : List Snapshot)
    (hne : snapshots ≠ []) :
    ((groupSnapshots snapshots).map (fun g => g.snapshots)).flatten = sortDesc snapshots ∧
    ((groupSnapshots snapshots).map (fun g => g.snapshots)).flatten.Perm snapshots ∧
    (∀ g ∈ groupSnapshots snapshots, ∀ x ∈ g.snapshots, ∀ y ∈ g.snapshots,
      areSnapshotsIdentical x y = true) ∧
    (groupSnapshots snapshots).Chain'
      (fun g1 g2 => areSnapshotsIdentical g1.representative g2.representative = false) ∧
    (∀ g ∈ groupSnapshots snapshots,
      g.snapshots ≠ [] ∧
      (∃ x ∈ g.snapshots, x.created_at = g.startDate) ∧
      (∀ x ∈ g.snapshots, x.created_at ≤ g.startDate) ∧
      (∃ x ∈ g.snapshots, x.created_at = g.endDate) ∧
      (∀ x ∈ g.snapshots, g.endDate ≤ x.created_at)) := by
  cases hsd : sortDesc snapshots with
  | nil =>
    exfalso
    have hp := sortDesc_perm snapshots
    rw [hsd] at hp
    exact hne hp.symm.eq_nil
  | cons first rest =>
    have hgs : groupSnapshots snapshots =
        groupLoop rest ⟨[first], first, first.created_at, first.created_at⟩ [] := by
      unfold groupSnapshots
      rw [hsd]
    have hflat : ((groupSnapshots snapshots).map (fun g => g.snapshots)).flatten =
        sortDesc snapshots := by
      rw [hgs, groupLoop_flatten, hsd]
      simp
    refine ⟨by rw [hflat]; exact hsd, ?_, ?_, ?_, ?_⟩
    · rw [hflat]
      exact sortDesc_perm snapshots
    · intro g hg x hx y hy
      have hOK : groupOK g := by
        rw [hgs] at hg
        refine groupLoop_groupOK rest _ [] ?_ (by simp) g hg
        intro z hz
        simp only [List.mem_singleton] at hz
        subst hz
        exact ident_refl _
      exact ident_trans (ident_symm (hOK x hx)) (hOK y hy)
    · rw [hgs]
      exact groupLoop_chain rest _ [] (by simp [List.chain'_singleton])
    · intro g hg
      have hdOK : groupDatesOK g := by
        rw [hgs] at hg
        refine groupLoop_datesOK rest _ [] ⟨by simp, by simp, by simp⟩ (by simp) g hg
      obtain ⟨hne', hh, hl⟩ := hdOK
      have hsubmem : g.snapshots ∈ (groupSnapshots snapshots).map (fun g => g.snapshots) :=
        List.mem_map_of_mem _ hg
      have hsub : g.snapshots.Sublist (sortDesc snapshots) := by
        rw [← hflat]
        exact List.sublist_flatten_of_mem hsubmem
      have hsorted : g.snapshots.Pairwise (fun a b => b.created_at ≤ a.created_at) :=
        (sortDesc_sorted snapshots).sublist hsub
      cases hcs : g.snapshots with
      | nil => exact absurd hcs hne'
      | cons hd tl =>
        rw [hcs] at hh hl hsorted
        simp only [List.head?_cons, Option.map_some', Option.some.injEq] at hh
        cases hlast : (hd :: tl).getLast? with
        | none => simp at hlast
        | some lst =>
          rw [hlast] at hl
          simp only [Option.map_some', Option.some.injEq] at hl
          refine ⟨by simp, ⟨hd, List.mem_cons_self _ _, hh⟩, ?_,
            ⟨lst, List.mem_of_getLast?_eq_some hlast, hl⟩, ?_⟩
          · intro x hx
            rw [List.pairwise_cons] at hsorted
            rcases List.mem_cons.mp hx with rfl | hx'
            · exact Nat.le_of_eq hh
            · rw [← hh]
              exact hsorted.1 x hx'
          · intro x hx
            rw [← hl]
            exact getLast_min_of_sorted (hd :: tl) hsorted lst hlast x hx

/-- Witness for C10 at the concrete two-snapshot history. -/
theorem claim_C10_witness :
    exHistory ≠ [] ∧
    (((groupSnapshots exHistory).map (fun g => g.snapshots)).flatten = sortDesc exHistory ∧
      ((groupSnapshots exHistory).map (fun g => g.snapshots)).flatten.Perm exHistory ∧
      (∀ g ∈ groupSnapshots exHistory, ∀ x ∈ g.snapshots, ∀ y ∈ g.snapshots,
        areSnapshotsIdentical x y = true) ∧
      (groupSnapshots exHistory).Chain'
        (fun g1 g2 => areSnapshotsIdentical g1.representative g2.representative = false) ∧
      (∀ g ∈ groupSnapshots exHistory,
        g.snapshots ≠ [] ∧
        (∃ x ∈ g.snapshots, x.created_at = g.startDate) ∧
        (∀ x ∈ g.snapshots, x.created_at ≤ g.startDate) ∧
        (∃ x ∈ g.snapshots, x.created_at = g.endDate) ∧
        (∀ x ∈ g.snapshots, g.endDate ≤ x.created_at))) :=
  ⟨by decide, claim_C10_groupSnapshots_partition exHistory (by decide)⟩
